import Mathlib

/-!
Verification development for the go-env repository: an environment-variable
unmarshaler that maps a list of KEY=VALUE strings onto the fields of a
(possibly nested) struct.

The Go source is shallowly embedded: Go strings are Lean `String`s
manipulated through executable character-list helpers mirroring the exact
stdlib calls the source makes; Go's reflection universe is embedded as the
inductive `Ty` of field types together with the inductive `Value` of runtime
values.  Machine integers are modelled as `Int`/`Nat` with the explicit
range checks that `strconv` performs.  Identifiers and tag text in this
development are ASCII, for which Lean's `Char.toUpper`/`Char.isUpper` agree
with Go's `unicode` package.  Floating-point field kinds are outside the
universe modelled here (no claim concerns them).
-/

set_option autoImplicit false

namespace GoEnv

/-! ### Go string helpers (strings.SplitN, strings.Split, strings.TrimSpace, …) -/

/-- Model of `strings.SplitN(s, sep, 2)` for a single-character separator:
the characters before the first occurrence of `sep`, and—when `sep`
occurs—the remainder after it.  `none` in the second component corresponds
to Go returning a one-element slice. -/
def goSplitN2 (sep : Char) : List Char → List Char × Option (List Char)
  | [] => ([], none)
  | c :: rest =>
    if c = sep then ([], some rest)
    else
      let r := goSplitN2 sep rest
      (c :: r.1, r.2)

/-- Model of `strings.Split(s, sep)` for a single-character separator
(`n = -1`: all substrings). -/
def goSplitAll (sep : Char) : List Char → List (List Char)
  | [] => [[]]
  | c :: rest =>
    let parts := goSplitAll sep rest
    if c = sep then [] :: parts
    else
      match parts with
      | p :: ps => (c :: p) :: ps
      | [] => [[c]]

/-- Model of `unicode.IsSpace` restricted to the code points Go treats as
space in Latin-1: ' ', '\t', '\n', '\v', '\f', '\r', U+0085, U+00A0. -/
def goIsSpace (c : Char) : Bool :=
  c = ' ' || c = '\t' || c = '\n' || c.toNat = 11 || c.toNat = 12 || c = '\r' ||
  c.toNat = 133 || c.toNat = 160

/-- Model of `strings.TrimSpace`. -/
def goTrimSpace (cs : List Char) : List Char :=
  ((cs.dropWhile goIsSpace).reverse.dropWhile goIsSpace).reverse

/-- Model of `strings.EqualFold` for ASCII input: simple case folding. -/
def goEqualFold (a b : List Char) : Bool :=
  a.map Char.toLower == b.map Char.toLower

/-- Model of `strings.ReplaceAll(s, "\\s", " ")`: every occurrence of the
two-character sequence backslash-s becomes a space, scanning left to right. -/
def replaceBackslashS : List Char → List Char
  | '\\' :: 's' :: rest => ' ' :: replaceBackslashS rest
  | c :: rest => c :: replaceBackslashS rest
  | [] => []

/-! ### Go map[string]string as an association list with overwrite-on-insert -/

/-- Insertion into a `map[string]string`: overwrites an existing binding. -/
def mapSet : List (String × String) → String → String → List (String × String)
  | [], k, v => [(k, v)]
  | (k0, v0) :: rest, k, v =>
    if k0 = k then (k, v) :: rest else (k0, v0) :: mapSet rest k v

/-- Lookup in a `map[string]string`. -/
def mapGet : List (String × String) → String → Option String
  | [], _ => none
  | (k0, v0) :: rest, k => if k0 = k then some v0 else mapGet rest k

/-! ### strconv models (ParseBool, ParseInt, ParseUint, Atoi) -/

/-- Kind of a `strconv.NumError`: `ErrSyntax` or `ErrRange`. -/
inductive NumErrKind where
  | errSyn
  | errRange
deriving DecidableEq

/-- Model of `strconv.NumError`: the function name, the input, and which of
the two sentinel errors occurred. -/
structure NumError where
  fn : String
  num : String
  kind : NumErrKind
deriving DecidableEq

/-- Value of a decimal digit, `none` for any other character. -/
def digitVal (c : Char) : Option Nat :=
  if '0' ≤ c && c ≤ '9' then some (c.toNat - '0'.toNat) else none

/-- Accumulate decimal digits left to right; `none` on any non-digit. -/
def digitsToNat : List Char → Nat → Option Nat
  | [], acc => some acc
  | c :: rest, acc =>
    match digitVal c with
    | some d => digitsToNat rest (acc * 10 + d)
    | none => none

/-- Numeric value of a non-empty all-digit string, `none` otherwise. -/
def parseDigits : List Char → Option Nat
  | [] => none
  | cs => digitsToNat cs 0

/-- Model of `strconv.ParseUint(s, 10, bitSize)` (`bitSize = 0` means the
64-bit word size): no sign is accepted, every character must be a decimal
digit, and a value above `2^bitSize - 1` is a range error. -/
def parseUintE (fn : String) (s : String) (bitSize : Nat) : Except NumError Nat :=
  let bs := if bitSize = 0 then 64 else bitSize
  match parseDigits s.data with
  | none => .error ⟨fn, s, .errSyn⟩
  | some n => if n > 2 ^ bs - 1 then .error ⟨fn, s, .errRange⟩ else .ok n

/-- Model of `strconv.ParseInt(s, 10, bitSize)` (and of `strconv.Atoi` with
`fn = "Atoi"`, `bitSize = 0`): an optional sign followed by decimal digits,
range-checked against the signed interval of the given width. -/
def parseIntE (fn : String) (s : String) (bitSize : Nat) : Except NumError Int :=
  match s.data with
  | [] => .error ⟨fn, s, .errSyn⟩
  | cs =>
    let signed : Bool × List Char :=
      match cs with
      | '+' :: rest => (false, rest)
      | '-' :: rest => (true, rest)
      | rest => (false, rest)
    match parseDigits signed.2 with
    | none => .error ⟨fn, s, .errSyn⟩
    | some n =>
      let bs := if bitSize = 0 then 64 else bitSize
      let cutoff := 2 ^ (bs - 1)
      if !signed.1 && n ≥ cutoff then .error ⟨fn, s, .errRange⟩
      else if signed.1 && n > cutoff then .error ⟨fn, s, .errRange⟩
      else .ok (if signed.1 then -(n : Int) else (n : Int))

/-- Model of `strconv.ParseBool`. -/
def parseBoolE (s : String) : Except NumError Bool :=
  if s = "1" || s = "t" || s = "T" || s = "true" || s = "TRUE" || s = "True" then .ok true
  else if s = "0" || s = "f" || s = "F" || s = "false" || s = "FALSE" || s = "False" then .ok false
  else .error ⟨"ParseBool", s, .errSyn⟩

/-! ### fieldNameToEnvVariable (the name deriver) -/

/-- Source `isNum`. -/
def isNum (r : Char) : Bool :=
  '0' ≤ r && r ≤ '9'

/-- Source `isLetter`. -/
def isLetter (r : Char) : Bool :=
  ('a' ≤ r && r ≤ 'z') || ('A' ≤ r && r ≤ 'Z')

/-- Source `writeRune` closure: writes `r` unless `r` is an underscore that
equals the previously written rune; the state is (previous rune, builder). -/
def writeRune (st : Char × List Char) (r : Char) : Char × List Char :=
  if r = '_' && r = st.1 then st
  else (r, st.2 ++ [r])

/-- Main loop of `fieldNameToEnvVariable`, one step per index, with the
final character handled separately as in the source. -/
def fieldNameToEnvVariableAux : List Char → Char × List Char → List Char
  | [], st => st.2
  | [c], st => (writeRune st c.toUpper).2
  | c :: next :: rest, st =>
    let st1 :=
      if c.isUpper && next.isLower then
        writeRune (writeRune st '_') c
      else if (isLetter c && isNum next) || (isNum c && isLetter next) ||
              (c.isLower && next.isUpper) then
        writeRune (writeRune st c.toUpper) '_'
      else
        writeRune st c.toUpper
    fieldNameToEnvVariableAux (next :: rest) st1

/-- Source `fieldNameToEnvVariable`: upper-cases the identifier and inserts
underscores at case/digit boundaries; the previous-rune state starts at '_'
so a name never begins with an underscore. -/
def fieldNameToEnvVariable (name : String) : String :=
  String.mk (fieldNameToEnvVariableAux name.data ('_', []))

/-! ### parseFieldTag (the tag-directive parser) -/

/-- Source `fieldTag`. -/
structure FieldTag where
  Name : String
  Default : String
  HasDefault : Bool
  Required : Bool
deriving DecidableEq

/-- Body of the directive-token loop in `parseFieldTag`: splits the token at
the first '=', lower-cases and trims the key, sets the required flag when the
key case-folds to "required", and records a key=value pair (with `\s` in the
value replaced by a space); a token without '=' adds no pair. -/
def parseTagToken (acc : Bool × List (String × String)) (pair : List Char) :
    Bool × List (String × String) :=
  let keyVal := goSplitN2 '=' pair
  let standardName := String.mk ((goTrimSpace keyVal.1).map Char.toLower)
  let req := acc.1 || goEqualFold standardName.data "required".data
  match keyVal.2 with
  | none => (req, acc.2)
  | some v => (req, mapSet acc.2 standardName (String.mk (replaceBackslashS v)))

/-- Source `parseFieldTag`. -/
def parseFieldTag (tag : String) : FieldTag :=
  let tagParts := goSplitN2 ',' tag.data
  let envName := String.mk (goTrimSpace tagParts.1)
  match tagParts.2 with
  | none => { Name := envName, Default := "", HasDefault := false, Required := false }
  | some rest =>
    let st := (goSplitAll ' ' rest).foldl parseTagToken (false, [])
    let d := mapGet st.2 "default"
    { Name := envName, Default := d.getD "", HasDefault := d.isSome, Required := st.1 }

/-! ### The reflection universe: field types and runtime values

`Ty` is the sub-universe of Go types the claims range over: the supported
primitive kinds, byte/rune-like slices, pointers, structs (with per-field
name and `env` tag text, as `reflect.StructField` exposes them), a channel
kind standing for an unsupported type (`chanT name`, where `name` is the
type's `Name()` — empty for an unnamed type such as `chan struct\x7b\x7d`),
and `unm vr`, a named client type implementing the `Unmarshaler` interface
(`vr` records whether the method has a value receiver, which fixes the
method sets of `unm` and `ptr unm` exactly as Go does). -/

mutual

inductive Ty where
  | str
  | bool
  | int
  | int8
  | int16
  | int32
  | int64
  | uint
  | uint8
  | uint16
  | uint32
  | uint64
  | slice (elem : Ty)
  | ptr (t : Ty)
  | strukt (fields : Fields)
  | chanT (name : String)
  | unm (valueReceiver : Bool)

inductive Fields where
  | nil
  | cons (name tag : String) (ty : Ty) (rest : Fields)

end

/-- Runtime values for `Ty`.  `unmState` is the state of the modelled
client `Unmarshaler` type (the raw string it last received, if any);
`chan` is the opaque value of the unsupported channel type. -/
inductive Value where
  | str (s : String)
  | bool (b : Bool)
  | int (n : Int)
  | uint (n : Nat)
  | slice (elems : List Value)
  | strukt (fields : List Value)
  | ptr (v : Option Value)
  | chan
  | unmState (received : Option String)

/-- Go `reflect.Kind` for the kinds present in the universe. -/
inductive Kind where
  | string
  | bool
  | int
  | int8
  | int16
  | int32
  | int64
  | uint
  | uint8
  | uint16
  | uint32
  | uint64
  | slice
  | ptr
  | strukt
  | chan
deriving DecidableEq

/-- `reflect.Type.Kind()`.  The modelled `Unmarshaler` type has a slice
underlying type, like the `sliceUnmarshaler` example in the repository. -/
def Ty.kind : Ty → Kind
  | .str => .string
  | .bool => .bool
  | .int => .int
  | .int8 => .int8
  | .int16 => .int16
  | .int32 => .int32
  | .int64 => .int64
  | .uint => .uint
  | .uint8 => .uint8
  | .uint16 => .uint16
  | .uint32 => .uint32
  | .uint64 => .uint64
  | .slice _ => .slice
  | .ptr _ => .ptr
  | .strukt _ => .strukt
  | .chanT _ => .chan
  | .unm _ => .slice

/-- `reflect.Type.Name()`: predeclared types are named after themselves;
pointer, slice and anonymous struct types are unnamed (empty name); a named
channel or unmarshaler type carries its declared name. -/
def Ty.name : Ty → String
  | .str => "string"
  | .bool => "bool"
  | .int => "int"
  | .int8 => "int8"
  | .int16 => "int16"
  | .int32 => "int32"
  | .int64 => "int64"
  | .uint => "uint"
  | .uint8 => "uint8"
  | .uint16 => "uint16"
  | .uint32 => "uint32"
  | .uint64 => "uint64"
  | .slice _ => ""
  | .ptr _ => ""
  | .strukt _ => ""
  | .chanT n => n
  | .unm _ => "customUnmarshaler"

mutual

/-- Zero value of each type (`reflect.New(t).Elem()`). -/
def zeroValue : Ty → Value
  | .str => .str ""
  | .bool => .bool false
  | .int => .int 0
  | .int8 => .int 0
  | .int16 => .int 0
  | .int32 => .int 0
  | .int64 => .int 0
  | .uint => .uint 0
  | .uint8 => .uint 0
  | .uint16 => .uint 0
  | .uint32 => .uint 0
  | .uint64 => .uint 0
  | .slice _ => .slice []
  | .ptr _ => .ptr none
  | .strukt fs => .strukt (zeroFields fs)
  | .chanT _ => .chan
  | .unm _ => .unmState none

def zeroFields : Fields → List Value
  | .nil => []
  | .cons _ _ t rest => zeroValue t :: zeroFields rest

end

mutual

/-- Boolean structural equality of runtime values (used to state that two
concrete values differ). -/
def valueBeq : Value → Value → Bool
  | .str a, .str b => a == b
  | .bool a, .bool b => a == b
  | .int a, .int b => a == b
  | .uint a, .uint b => a == b
  | .slice a, .slice b => valueListBeq a b
  | .strukt a, .strukt b => valueListBeq a b
  | .ptr none, .ptr none => true
  | .ptr (some a), .ptr (some b) => valueBeq a b
  | .chan, .chan => true
  | .unmState a, .unmState b => a == b
  | _, _ => false

/-- Boolean equality of value lists. -/
def valueListBeq : List Value → List Value → Bool
  | [], [] => true
  | a :: as, b :: bs => valueBeq a b && valueListBeq as bs
  | _, _ => false

end

/-- `reflect.StructField.IsExported()`: first character upper case. -/
def isExportedName (n : String) : Bool :=
  match n.data with
  | [] => false
  | c :: _ => c.isUpper

/-! ### Errors -/

/-- Underlying causes of field-level failures: a `strconv` error, the
"unsupported field type %s" error from `validateFieldAndReturnSetter`, the
"missing required value" error from `processField`, or an error reported by
a client `UnmarshalEnv` hook. -/
inductive BaseErr where
  | num (e : NumError)
  | unsupported (typeName : String)
  | missingRequired
  | hook (msg : String)
deriving DecidableEq

/-- Source `fieldParseError` (constructed by `newFieldParseError`): the
wrapped cause, the dotted field path, and the resolved variable name. -/
structure FieldParseErr where
  err : BaseErr
  field : String
  envVar : String
deriving DecidableEq

/-! ### fieldparser.go: the value coercer -/

/-- UTF-8 bytes of one character (Go strings are byte sequences). -/
def charUtf8Bytes (c : Char) : List Nat :=
  let n := c.toNat
  if n < 128 then [n]
  else if n < 2048 then [192 + n / 64, 128 + n % 64]
  else if n < 65536 then [224 + n / 4096, 128 + (n / 64) % 64, 128 + n % 64]
  else [240 + n / 262144, 128 + (n / 4096) % 64, 128 + (n / 64) % 64, 128 + n % 64]

/-- Bytes of a Go string. -/
def goStringBytes (s : String) : List Nat :=
  s.data.flatMap charUtf8Bytes

/-- Source `charSliceSetter`: indexes the raw string byte by byte and
converts each byte to the slice's element type (int32 or uint8). -/
def charSliceSetter (elemKind : Kind) (v : String) : Value :=
  .slice ((goStringBytes v).map fun b =>
    if elemKind = Kind.int32 then Value.int (Int.ofNat b) else Value.uint b)

/-- Source `fieldKindToParser`: the coercion registry.  Entries exist for
string, bool and every integer width; kinds outside the registry map to
`none`. -/
def fieldKindToParser : Kind → Option (String → Except BaseErr Value)
  | .string => some fun v => .ok (.str v)
  | .bool => some fun v => ((parseBoolE v).map Value.bool).mapError BaseErr.num
  | .int => some fun v => ((parseIntE "Atoi" v 0).map Value.int).mapError BaseErr.num
  | .int8 => some fun v => ((parseIntE "ParseInt" v 8).map Value.int).mapError BaseErr.num
  | .int16 => some fun v => ((parseIntE "ParseInt" v 16).map Value.int).mapError BaseErr.num
  | .int32 => some fun v => ((parseIntE "ParseInt" v 32).map Value.int).mapError BaseErr.num
  | .int64 => some fun v => ((parseIntE "ParseInt" v 64).map Value.int).mapError BaseErr.num
  | .uint => some fun v => ((parseUintE "ParseUint" v 0).map Value.uint).mapError BaseErr.num
  | .uint8 => some fun v => ((parseUintE "ParseUint" v 8).map Value.uint).mapError BaseErr.num
  | .uint16 => some fun v => ((parseUintE "ParseUint" v 16).map Value.uint).mapError BaseErr.num
  | .uint32 => some fun v => ((parseUintE "ParseUint" v 32).map Value.uint).mapError BaseErr.num
  | .uint64 => some fun v => ((parseUintE "ParseUint" v 64).map Value.uint).mapError BaseErr.num
  | _ => none

/-- The pointer-unwrapping loop at the top of `validateFieldAndReturnSetter`. -/
def stripPtrAll : Ty → Ty
  | .ptr t => stripPtrAll t
  | t => t

/-- Source `validateFieldAndReturnSetter`: unwraps every pointer level, then
special-cases rune and byte slices, then consults the registry; an
unregistered kind is the "unsupported field type" error, whose message uses
the name of the field's ORIGINAL (declared) type. -/
def validateFieldAndReturnSetter (fieldTy : Ty) :
    Except BaseErr (String → Except BaseErr Value) :=
  let ft := stripPtrAll fieldTy
  let fromMap : Except BaseErr (String → Except BaseErr Value) :=
    match fieldKindToParser ft.kind with
    | some p => .ok p
    | none => .error (.unsupported fieldTy.name)
  match ft with
  | .slice e =>
    match e.kind with
    | .int32 => .ok fun v => .ok (charSliceSetter .int32 v)
    | .uint8 => .ok fun v => .ok (charSliceSetter .uint8 v)
    | _ => fromMap
  | _ => fromMap

/-- Source `concreteFieldInitializer.Set`: while the field's type is a
pointer, allocate a fresh zero value for the pointee, ASSIGN THE POINTER
(even though parsing has not happened yet), and descend; at the base type
run the parser and assign on success, leaving the current target unchanged
on failure.  Returns the field's value after the call and the error. -/
def concreteFieldInitializerSet (inner : String → Except BaseErr Value) (v : String) :
    Ty → Value → Value × Option BaseErr
  | .ptr t, _ =>
    let r := concreteFieldInitializerSet inner v t (zeroValue t)
    (.ptr (some r.1), r.2)
  | _, old =>
    match inner v with
    | .ok val => (val, none)
    | .error e => (old, some e)

/-! ### attemptUnmarshal (the custom hook dispatcher) -/

/-- Whether a type's method set contains `UnmarshalEnv` (so the type
implements the `Unmarshaler` interface).  Following Go's method-set rules
for the modelled client type: `unm true` (value receiver) implements;
`unm false` (pointer receiver) does not; `ptr (unm vr)` always implements;
a pointer to a pointer (or to anything without methods) does not. -/
def implementsUnmarshaler : Ty → Bool
  | .unm vr => vr
  | .ptr (.unm _) => true
  | _ => false

/-- The unwrap loop of `attemptUnmarshal`: starting from the address type,
count pointer indirections until a type implementing `Unmarshaler` is
reached; `none` when the loop bottoms out at a non-pointer. -/
def unmarshalerDepth : Ty → Option Nat
  | .ptr inner =>
    if implementsUnmarshaler (.ptr inner) then some 0
    else (unmarshalerDepth inner).map (· + 1)
  | t => if implementsUnmarshaler t then some 0 else none

/-- Strip `k` pointer levels from a type. -/
def stripPtr : Nat → Ty → Ty
  | 0, t => t
  | k + 1, .ptr t => stripPtr k t
  | _ + 1, t => t

/-- Wrap a value in `k` freshly-allocated pointer levels, as the
materialization loop of `attemptUnmarshal` does. -/
def mkPtrChain : Nat → Value → Value
  | 0, v => v
  | k + 1, v => .ptr (some (mkPtrChain k v))

/-- Modelled `UnmarshalEnv` of the client type (client hook implementations
live outside this repository): it records the raw value and succeeds. -/
def unmarshalEnvHook (state : Value) (v : String) : Value × Option String :=
  let _ := state
  (.unmState (some v), none)

/-- Outcome of `attemptUnmarshal`: `(false, nil)` when no unmarshaler was
found; `(true, nil)` with the field untouched when no value was resolved;
the hook's result after materializing the intermediate pointers; or the
`panic("unreachable case: must be unmarshaler")` branch. -/
inductive UResult where
  | noUnmarshaler
  | handledAbsent
  | invoked (newField : Value) (err : Option String)
  | panicked

/-- Whether an `attemptUnmarshal` outcome is the panic branch. -/
def UResult.isPanicked : UResult → Bool
  | .panicked => true
  | _ => false

/-- Source `attemptUnmarshal`: addresses the field, searches for an
`Unmarshaler` implementation through pointer indirections, materializes
exactly that many intermediate pointer levels, asserts the materialized
value satisfies the interface (panicking otherwise), and invokes the hook. -/
def attemptUnmarshal (fty : Ty) (field : Value) (envValue : String) (envValueSet : Bool) :
    UResult :=
  match unmarshalerDepth (.ptr fty) with
  | none => .noUnmarshaler
  | some depth =>
    if !envValueSet then .handledAbsent
    else
      let stopTy := stripPtr depth (.ptr fty)
      if implementsUnmarshaler stopTy then
        let base :=
          if depth = 0 then field
          else
            match stopTy with
            | .ptr b => zeroValue b
            | _ => field
        let r := unmarshalEnvHook base envValue
        .invoked (mkPtrChain depth r.1) r.2
      else .panicked

/-! ### processField and loadEnvVarsIntoStruct (the struct walker) -/

/-- Name-resolution step of `processField`: an explicit non-empty tag name
is used as-is; an empty one falls back to the accumulated prefix joined to
the derived name. -/
def resolvedEnvName (ftag fname envVarPfx : String) : String :=
  let n := (parseFieldTag ftag).Name
  if n = "" then envVarPfx ++ fieldNameToEnvVariable fname else n

/-- Outcome of the part of `processField` that precedes the
struct-or-leaf type dispatch. -/
inductive PreResult where
  | skip
  | earlyOut (v : Value) (e : Option FieldParseErr)
  | panicked
  | dispatch (envValue : String) (envValueSet : Bool) (fieldPath envName : String)

/-- First half of source `processField`: parse the tag, honour the "-"
sentinel, resolve the variable name, look it up (falling back to the
default), fail on a missing required value, and run `attemptUnmarshal`.
`dispatch` means execution reached the struct/leaf type dispatch. -/
def preProcess (field : Value) (fname ftag : String) (fty : Ty)
    (envVars : List (String × String)) (fieldPathPfx envVarPfx : String) : PreResult :=
  let fTag := parseFieldTag ftag
  if fTag.Name = "-" then .skip
  else
    let envName := resolvedEnvName ftag fname envVarPfx
    let fieldPath := fieldPathPfx ++ fname
    let resolved : String × Bool :=
      match mapGet envVars envName with
      | some v => (v, true)
      | none => if fTag.HasDefault then (fTag.Default, true) else ("", false)
    if !resolved.2 && fTag.Required then
      .earlyOut field (some ⟨.missingRequired, fieldPath, envName⟩)
    else
      match attemptUnmarshal fty field resolved.1 resolved.2 with
      | .panicked => .panicked
      | .handledAbsent => .earlyOut field none
      | .invoked nf herr =>
        match herr with
        | some m => .earlyOut nf (some ⟨.hook m, fieldPath, envName⟩)
        | none => .earlyOut nf none
      | .noUnmarshaler => .dispatch resolved.1 resolved.2 fieldPath envName

/-- Tail of source `processField` for a non-struct field: obtain the setter
(or the unsupported-type error), return untouched when no value was
resolved, otherwise run the setter. -/
def coerceLeaf (fty : Ty) (field : Value) (envValue : String) (envValueSet : Bool)
    (fieldPath envName : String) : Value × Option FieldParseErr :=
  match validateFieldAndReturnSetter fty with
  | .error e => (field, some ⟨e, fieldPath, envName⟩)
  | .ok setter =>
    if !envValueSet then (field, none)
    else
      let r := concreteFieldInitializerSet setter envValue fty field
      match r.2 with
      | some e => (r.1, some ⟨e, fieldPath, envName⟩)
      | none => (r.1, none)

/-- Field values of a struct value (`reflect.Value.Field(i)` enumeration);
a non-struct value has none (unreachable for well-typed inputs, where a
value of kind struct is always a `Value.strukt`). -/
def structElems : Value → List Value
  | .strukt vs => vs
  | _ => []

/-- Re-wrap the result of the recursive struct walk as the struct field's
own result (the struct branch of `processField`). -/
def structResult : Except String (List Value × Option FieldParseErr) →
    Except String (Value × Option FieldParseErr)
  | .error p => .error p
  | .ok (nvs, e) => .ok (.strukt nvs, e)

/-- Prepend a finished field value to the walk result for the remaining
fields (panic propagates unchanged). -/
def consResult (v : Value) : Except String (List Value × Option FieldParseErr) →
    Except String (List Value × Option FieldParseErr)
  | .error p => .error p
  | .ok (nvs, e) => .ok (v :: nvs, e)

/-- The per-field step of the loop in `loadEnvVarsIntoStruct`: a panic
propagates; a field-level error aborts the loop (`return err` in Go), so the
remaining field values `restV` stay untouched; on success the loop
continues with `rest`. -/
def afterField (r : Except String (Value × Option FieldParseErr)) (restV : List Value)
    (rest : Except String (List Value × Option FieldParseErr)) :
    Except String (List Value × Option FieldParseErr) :=
  match r with
  | .error p => .error p
  | .ok (nv, some e) => .ok (nv :: restV, some e)
  | .ok (nv, none) => consResult nv rest

mutual

/-- Source `processField` over field value `field` with declared name
`fname`, `env` tag text `ftag` and type `fty`, assembled from `preProcess`,
the recursive struct case, and `coerceLeaf`.  Returns the field's value
after the call together with the field-level error, or `Except.error` with
the panic message if the (provably unreachable) panic in `attemptUnmarshal`
fired. -/
def processField (field : Value) (fname ftag : String) (fty : Ty)
    (envVars : List (String × String)) (fieldPathPfx envVarPfx : String) :
    Except String (Value × Option FieldParseErr) :=
  match preProcess field fname ftag fty envVars fieldPathPfx envVarPfx with
  | .skip => .ok (field, none)
  | .earlyOut v e => .ok (v, e)
  | .panicked => .error "unreachable case: must be unmarshaler"
  | .dispatch envValue envValueSet fieldPath envName =>
    match fty with
    | .strukt fs =>
      structResult
        (loadEnvVarsIntoStruct fs (structElems field) envVars (fieldPath ++ ".") (envName ++ "_"))
    | _ => .ok (coerceLeaf fty field envValue envValueSet fieldPath envName)

/-- Source `loadEnvVarsIntoStruct`: processes exported fields in declaration
order, stopping at the first error (whether a Go `error` value—modelled by
`some` in the second component—or the panic); skipped and unprocessed
fields keep their values. -/
def loadEnvVarsIntoStruct (fs : Fields) (vs : List Value)
    (envVars : List (String × String)) (fieldPath envVarPfx : String) :
    Except String (List Value × Option FieldParseErr) :=
  match fs, vs with
  | .nil, rest => .ok (rest, none)
  | .cons n tg ty restF, v :: restV =>
    if !isExportedName n then
      consResult v (loadEnvVarsIntoStruct restF restV envVars fieldPath envVarPfx)
    else
      afterField (processField v n tg ty envVars fieldPath envVarPfx) restV
        (loadEnvVarsIntoStruct restF restV envVars fieldPath envVarPfx)
  | .cons _ _ _ _, [] => .ok ([], none)

end

/-! ### The entry points -/

/-- The `out any` argument of the entry points: Go's untyped nil, or a
value of some type in the universe. -/
inductive GoAny where
  | nilAny
  | val (t : Ty) (v : Value)

/-- Error returned by the entry points: one of the invalid-target errors,
or a field-level error wrapped with the "failed to unmarshal environment
variables into struct" context. -/
inductive UnmarshalError where
  | invalidTarget (msg : String)
  | wrapped (err : FieldParseErr)
deriving DecidableEq

/-- Source `parseEnv`: builds the variable map, skipping entries without
'=' and letting later duplicate keys overwrite earlier ones. -/
def parseEnv (vars : List String) : List (String × String) :=
  vars.foldl
    (fun m v =>
      let parts := goSplitN2 '=' v.data
      match parts.2 with
      | none => m
      | some val => mapSet m (String.mk parts.1) (String.mk val))
    []

/-- Source `UnmarshalPrefix` (written without the trailing x in Go):
validates that `out` is a non-nil pointer to a struct, parses the variable
list and walks the struct with the given name prefix, wrapping any
field-level error.  Returns the updated target and the error. -/
def UnmarshalPfx (env : List String) (out : GoAny) (pfx : String) :
    Except String (GoAny × Option UnmarshalError) :=
  match out with
  | .nilAny => .ok (out, some (.invalidTarget "env: out must be a non-nil pointer to a struct"))
  | .val t v =>
    match t, v with
    | .ptr (.strukt fs), .ptr (some (.strukt vs)) =>
      let envVars := parseEnv env
      match loadEnvVarsIntoStruct fs vs envVars "" pfx with
      | .error p => .error p
      | .ok (nvs, some e) =>
        .ok (.val (.ptr (.strukt fs)) (.ptr (some (.strukt nvs))), some (.wrapped e))
      | .ok (nvs, none) =>
        .ok (.val (.ptr (.strukt fs)) (.ptr (some (.strukt nvs))), none)
    | .ptr _, _ => .ok (out, some (.invalidTarget "out must be a non-nil pointer to a struct"))
    | _, _ => .ok (out, some (.invalidTarget "out must be a non-nil pointer to a struct"))

/-- Source `Unmarshal`: `UnmarshalPrefix` with the empty prefix. -/
def Unmarshal (env : List String) (out : GoAny) :
    Except String (GoAny × Option UnmarshalError) :=
  UnmarshalPfx env out ""

/-- A pointer chain of `n` levels over a base type. -/
def ptrN : Nat → Ty → Ty
  | 0, t => t
  | k + 1, t => .ptr (ptrN k t)

/-- Whether `validateFieldAndReturnSetter` succeeds on a type. -/
def setterFound (fty : Ty) : Bool :=
  match validateFieldAndReturnSetter fty with
  | .ok _ => true
  | .error _ => false

/-- Field list of the round-trip record
`{URL string; Auth struct{SigningKey string; TTLSeconds uint}}`. -/
def roundTripFields : Fields :=
  .cons "URL" "" .str
    (.cons "Auth" ""
      (.strukt (.cons "SigningKey" "" .str (.cons "TTLSeconds" "" .uint .nil))) .nil)

/-- Field list of the nested-prefix record: an outer field `Auth` tagged
`env:"AUTH"` whose struct contains `SigningKey` (untagged), `TTLSeconds`
tagged `env:"JWT_TTL"` and `MaxAge` (untagged). -/
def nestedTagFields : Fields :=
  .cons "Auth" "AUTH"
    (.strukt (.cons "SigningKey" "" .str
      (.cons "TTLSeconds" "JWT_TTL" .uint (.cons "MaxAge" "" .uint .nil)))) .nil

/-! ### Helper lemmas -/

/-- When the unwrap loop of `attemptUnmarshal` reports depth `d`, the type
reached after stripping `d` pointer levels implements `Unmarshaler`. -/
theorem unmarshalerDepth_implements :
    ∀ (d : Nat) (t : Ty), unmarshalerDepth t = some d →
      implementsUnmarshaler (stripPtr d t) = true := by
  intro d
  induction d with
  | zero =>
    intro t h
    cases t
    case ptr inner =>
      simp only [stripPtr]
      simp only [unmarshalerDepth] at h
      split at h
      · assumption
      · simp only [Option.map_eq_some'] at h
        obtain ⟨a, _, hae⟩ := h
        omega
    all_goals
      simp only [stripPtr]
      simp only [unmarshalerDepth] at h
      split at h
      · assumption
      · simp at h
  | succ m ih =>
    intro t h
    cases t
    case ptr inner =>
      simp only [unmarshalerDepth] at h
      split at h
      · simp at h
      · simp only [Option.map_eq_some'] at h
        obtain ⟨a, ha, hae⟩ := h
        have ham : a = m := by omega
        subst ham
        simp only [stripPtr]
        exact ih inner ha
    all_goals
      simp only [unmarshalerDepth] at h
      split at h
      · simp at h
      · simp at h

/-- When the tag name is not the sentinel, the variable is absent, there is
no default and the field is required, `preProcess` stops with the
missing-required-value error carrying the field path and variable name. -/
theorem preProcess_required_missing (fname ftag : String) (fty : Ty) (v : Value)
    (envVars : List (String × String)) (path pfx : String)
    (hdash : (parseFieldTag ftag).Name ≠ "-")
    (hreq : (parseFieldTag ftag).Required = true)
    (hdef : (parseFieldTag ftag).HasDefault = false)
    (hmap : mapGet envVars (resolvedEnvName ftag fname pfx) = none) :
    preProcess v fname ftag fty envVars path pfx =
      .earlyOut v (some ⟨.missingRequired, path ++ fname, resolvedEnvName ftag fname pfx⟩) := by
  simp only [preProcess]
  rw [if_neg hdash, hmap, hdef]
  simp [hreq]

/-- When the variable is absent with no default and the field is not
required, and the unwrap loop finds an unmarshaler, `preProcess` reports the
field handled with its value untouched. -/
theorem preProcess_absent_found (fname ftag : String) (fty : Ty) (v : Value)
    (envVars : List (String × String)) (path pfx : String) (d : Nat)
    (hdash : (parseFieldTag ftag).Name ≠ "-")
    (hreq : (parseFieldTag ftag).Required = false)
    (hdef : (parseFieldTag ftag).HasDefault = false)
    (hmap : mapGet envVars (resolvedEnvName ftag fname pfx) = none)
    (hd : unmarshalerDepth (.ptr fty) = some d) :
    preProcess v fname ftag fty envVars path pfx = .earlyOut v none := by
  simp only [preProcess]
  rw [if_neg hdash, hmap, hdef]
  simp only [Bool.false_eq_true, if_false, hreq, Bool.and_false, attemptUnmarshal, hd]
  simp

/-- When the variable is absent with no default and the field is not
required, and no unmarshaler is found, `preProcess` reaches the type
dispatch with no resolved value. -/
theorem preProcess_absent_dispatch (fname ftag : String) (fty : Ty) (v : Value)
    (envVars : List (String × String)) (path pfx : String)
    (hdash : (parseFieldTag ftag).Name ≠ "-")
    (hreq : (parseFieldTag ftag).Required = false)
    (hdef : (parseFieldTag ftag).HasDefault = false)
    (hmap : mapGet envVars (resolvedEnvName ftag fname pfx) = none)
    (hd : unmarshalerDepth (.ptr fty) = none) :
    preProcess v fname ftag fty envVars path pfx =
      .dispatch "" false (path ++ fname) (resolvedEnvName ftag fname pfx) := by
  simp only [preProcess]
  rw [if_neg hdash, hmap, hdef]
  simp only [Bool.false_eq_true, if_false, hreq, Bool.and_false, attemptUnmarshal, hd]

/-- When the tag name is not the sentinel, the variable is present and no
unmarshaler is found, `preProcess` reaches the type dispatch carrying the
raw value. -/
theorem preProcess_present (fname ftag : String) (fty : Ty) (v : Value)
    (envVars : List (String × String)) (path pfx : String) (raw : String)
    (hdash : (parseFieldTag ftag).Name ≠ "-")
    (hmap : mapGet envVars (resolvedEnvName ftag fname pfx) = some raw)
    (hd : unmarshalerDepth (.ptr fty) = none) :
    preProcess v fname ftag fty envVars path pfx =
      .dispatch raw true (path ++ fname) (resolvedEnvName ftag fname pfx) := by
  simp only [preProcess]
  rw [if_neg hdash, hmap]
  simp only [Bool.not_true, Bool.false_and, Bool.false_eq_true, if_false,
    attemptUnmarshal, hd]

/-- Stripping all pointers ignores any pointer chain wrapped around a type. -/
theorem stripPtrAll_ptrN : ∀ (n : Nat) (t : Ty), stripPtrAll (ptrN n t) = stripPtrAll t := by
  intro n t
  induction n with
  | zero => rfl
  | succ m ih =>
    show stripPtrAll (.ptr (ptrN m t)) = stripPtrAll t
    rw [show stripPtrAll (.ptr (ptrN m t)) = stripPtrAll (ptrN m t) from rfl]
    exact ih

/-- The setter materializes EVERY pointer level: on a chain of `m + 1`
pointers it allocates each level and runs the base coercion on a fresh zero
value, producing the full chain and propagating the base outcome. -/
theorem concreteSet_ptrN_succ :
    ∀ (m : Nat) (inner : String → Except BaseErr Value) (v : String) (t : Ty) (old : Value),
      concreteFieldInitializerSet inner v (ptrN (m + 1) t) old =
        (mkPtrChain (m + 1) (concreteFieldInitializerSet inner v t (zeroValue t)).1,
          (concreteFieldInitializerSet inner v t (zeroValue t)).2) := by
  intro m
  induction m with
  | zero =>
    intro inner v t old
    rfl
  | succ k ih =>
    intro inner v t old
    show concreteFieldInitializerSet inner v (.ptr (ptrN (k + 1) t)) old = _
    rw [show concreteFieldInitializerSet inner v (.ptr (ptrN (k + 1) t)) old =
        (.ptr (some (concreteFieldInitializerSet inner v (ptrN (k + 1) t)
            (zeroValue (ptrN (k + 1) t))).1),
          (concreteFieldInitializerSet inner v (ptrN (k + 1) t)
            (zeroValue (ptrN (k + 1) t))).2) from rfl]
    rw [ih inner v t (zeroValue (ptrN (k + 1) t))]
    rfl

/-- A pointer chain over a (named or unnamed) channel type fails with the
unsupported-field-type error naming the DECLARED field type, whose `Name()`
is empty for a pointer type. -/
theorem validate_ptrN_chan :
    ∀ (n : Nat) (nm : String), 0 < n →
      validateFieldAndReturnSetter (ptrN n (.chanT nm)) = .error (.unsupported "") := by
  intro n nm hn
  match n, hn with
  | m + 1, _ =>
    simp [validateFieldAndReturnSetter, stripPtrAll_ptrN, stripPtrAll, Ty.kind,
      fieldKindToParser, ptrN, Ty.name]

/-! ### Claim theorems -/

/-- C1: unmarshalling the pair list
`["URL=https://x.com", "AUTH_SIGNING_KEY=k", "AUTH_TTL_SECONDS=60"]` into a
zeroed record `{URL string; Auth struct{SigningKey string; TTLSeconds uint}}`
returns no error and yields `URL = "https://x.com"`,
`Auth.SigningKey = "k"` and `Auth.TTLSeconds = 60`. -/
theorem unmarshal_roundtrip_c1 :
    Unmarshal ["URL=https://x.com", "AUTH_SIGNING_KEY=k", "AUTH_TTL_SECONDS=60"]
        (.val (.ptr (.strukt roundTripFields))
          (.ptr (some (.strukt [.str "", .strukt [.str "", .uint 0]])))) =
      .ok (.val (.ptr (.strukt roundTripFields))
        (.ptr (some (.strukt [.str "https://x.com", .strukt [.str "k", .uint 60]]))),
        none) := rfl

/-- C2: the name deriver maps "JSONString" to "JSON_STRING", "fooBar" to
"FOO_BAR", "fooJSON" to "FOO_JSON", "MagicMike" to "MAGIC_MIKE" and
"JSON1String" to "JSON_1_STRING". -/
theorem field_name_derivation_c2 :
    fieldNameToEnvVariable "JSONString" = "JSON_STRING" ∧
    fieldNameToEnvVariable "fooBar" = "FOO_BAR" ∧
    fieldNameToEnvVariable "fooJSON" = "FOO_JSON" ∧
    fieldNameToEnvVariable "MagicMike" = "MAGIC_MIKE" ∧
    fieldNameToEnvVariable "JSON1String" = "JSON_1_STRING" :=
  ⟨rfl, rfl, rfl, rfl, rfl⟩

/-- C9: for every field whose parsed tag name is the sentinel "-",
regardless of the field's type and value and of the environment, processing
skips the field entirely: the value is unchanged and no error is produced. -/
theorem dash_skip_c9 :
    ∀ (fname ftag : String) (fty : Ty) (v : Value)
      (envVars : List (String × String)) (path pfx : String),
      (parseFieldTag ftag).Name = "-" →
      processField v fname ftag fty envVars path pfx = .ok (v, none) := by
  intro fname ftag fty v envVars path pfx h
  have hp : preProcess v fname ftag fty envVars path pfx = .skip := by
    simp only [preProcess]
    rw [h, if_pos rfl]
  unfold processField
  rw [hp]

/-- Witness for C9: a channel-typed field tagged `env:"-"` is skipped even
though a matching variable exists and the type is unsupported. -/
theorem dash_skip_c9_witness :
    processField .chan "UnsupportedType" "-" (.chanT "") [("UNSUPPORTED_TYPE", "x")] "" "" =
      .ok (.chan, none) :=
  dash_skip_c9 "UnsupportedType" "-" (.chanT "") .chan [("UNSUPPORTED_TYPE", "x")] "" "" rfl

/-- C4: for every field marked required whose resolved variable name is
absent and which has no default, the walk fails at that field with a
missing-required-value error carrying the field's path and variable name
(first conjunct), and a field error stops the walk: the remaining field
values are returned unprocessed (second conjunct). -/
theorem required_missing_aborts_c4 :
    (∀ (fname ftag : String) (fty : Ty) (v : Value)
      (envVars : List (String × String)) (path pfx : String),
      (parseFieldTag ftag).Name ≠ "-" →
      (parseFieldTag ftag).Required = true →
      (parseFieldTag ftag).HasDefault = false →
      mapGet envVars (resolvedEnvName ftag fname pfx) = none →
      processField v fname ftag fty envVars path pfx =
        .ok (v, some ⟨.missingRequired, path ++ fname, resolvedEnvName ftag fname pfx⟩)) ∧
    (∀ (n tg : String) (ty : Ty) (restF : Fields) (v : Value) (restV : List Value)
      (envVars : List (String × String)) (path pfx : String)
      (nv : Value) (e : FieldParseErr),
      isExportedName n = true →
      processField v n tg ty envVars path pfx = .ok (nv, some e) →
      loadEnvVarsIntoStruct (.cons n tg ty restF) (v :: restV) envVars path pfx =
        .ok (nv :: restV, some e)) := by
  constructor
  · intro fname ftag fty v envVars path pfx hdash hreq hdef hmap
    rw [processField.eq_def,
      preProcess_required_missing fname ftag fty v envVars path pfx hdash hreq hdef hmap]
  · intro n tg ty restF v restV envVars path pfx nv e hexp hproc
    rw [loadEnvVarsIntoStruct.eq_def]
    simp only [hexp, Bool.not_true, Bool.false_eq_true, if_false, hproc, afterField]

/-- Witness for C4: a required, defaultless string field `Key` with an empty
environment fails with the missing-required-value error for `Key`/`KEY`,
and a subsequent field is left unprocessed. -/
theorem required_missing_c4_witness :
    processField (.str "") "Key" ",required" .str [] "" "" =
      .ok (.str "", some ⟨.missingRequired, "Key", "KEY"⟩) ∧
    loadEnvVarsIntoStruct
        (.cons "Key" ",required" .str (.cons "Other" "" .str .nil))
        [.str "", .str "old"] [] "" "" =
      .ok ([.str "", .str "old"], some ⟨.missingRequired, "Key", "KEY"⟩) :=
  ⟨required_missing_aborts_c4.1 "Key" ",required" .str (.str "") [] "" ""
      (by decide) rfl rfl rfl,
    required_missing_aborts_c4.2 "Key" ",required" .str (.cons "Other" "" .str .nil)
      (.str "") [.str "old"] [] "" "" (.str "") ⟨.missingRequired, "Key", "KEY"⟩ rfl
      (required_missing_aborts_c4.1 "Key" ",required" .str (.str "") [] "" ""
        (by decide) rfl rfl rfl)⟩

/-- C5 counterexample: the claim states that a field whose variable is
absent (no default, not required) is left at its zero value with no
recursion; but for a struct-typed field the code recurses unconditionally —
here `Auth`'s own variable `AUTH` is absent, yet the nested `SigningKey`
field is populated from `AUTH_SIGNING_KEY`, so the field does not stay at
its zero value. -/
theorem optional_absent_c5_counterexample :
    processField (.strukt [.str ""]) "Auth" ""
        (.strukt (.cons "SigningKey" "" .str .nil)) [("AUTH_SIGNING_KEY", "k")] "" "" =
      .ok (.strukt [.str "k"], none) ∧
    zeroValue (.strukt (.cons "SigningKey" "" .str .nil)) = .strukt [.str ""] ∧
    valueBeq (.strukt [.str "k"]) (.strukt [.str ""]) = false :=
  ⟨rfl, rfl, rfl⟩

/-- C5 (amended): for every non-struct field whose type either implements
the unmarshal hook or is accepted by the value coercer, if the resolved
variable is absent and there is no default and the field is not required,
processing leaves the field's value unchanged and returns no error.
(Struct-typed fields are instead recursed into unconditionally, and fields
of unsupported type produce an unsupported-field-type error even when the
variable is absent.) -/
theorem optional_absent_amended_c5 :
    ∀ (fname ftag : String) (fty : Ty) (v : Value)
      (envVars : List (String × String)) (path pfx : String),
      (parseFieldTag ftag).Name ≠ "-" →
      (parseFieldTag ftag).Required = false →
      (parseFieldTag ftag).HasDefault = false →
      mapGet envVars (resolvedEnvName ftag fname pfx) = none →
      (∀ fs, fty ≠ .strukt fs) →
      ((unmarshalerDepth (.ptr fty)).isSome = true ∨ setterFound fty = true) →
      processField v fname ftag fty envVars path pfx = .ok (v, none) := by
  intro fname ftag fty v envVars path pfx hdash hreq hdef hmap hstrukt hsup
  rw [processField.eq_def]
  cases hd : unmarshalerDepth (.ptr fty) with
  | some d =>
    rw [preProcess_absent_found fname ftag fty v envVars path pfx d hdash hreq hdef hmap hd]
  | none =>
    rw [preProcess_absent_dispatch fname ftag fty v envVars path pfx hdash hreq hdef hmap hd]
    have hsetter : ∃ s, validateFieldAndReturnSetter fty = .ok s := by
      cases hsup with
      | inl h => rw [hd] at h; exact absurd h (by simp)
      | inr h =>
        unfold setterFound at h
        split at h
        · next s hs => exact ⟨s, hs⟩
        · exact absurd h (by simp)
    obtain ⟨setter, hv⟩ := hsetter
    cases fty <;>
      first
        | exact absurd rfl (hstrukt _)
        | simp [coerceLeaf, hv]

/-- Witness for C5 (amended): an absent, optional, defaultless `uint16`
field is left unchanged with no error. -/
theorem optional_absent_c5_witness :
    processField (.uint 0) "Port" "" .uint16 [("OTHER", "1")] "" "" = .ok (.uint 0, none) :=
  optional_absent_amended_c5 "Port" "" .uint16 (.uint 0) [("OTHER", "1")] "" ""
    (by decide) rfl rfl rfl (fun fs h => Ty.noConfusion h) (Or.inr rfl)

/-- C3: nested name resolution.  First two conjuncts, for every nested
field: an explicit non-empty tag name resolves to exactly that name with no
prefix applied, while an empty tag name resolves to the accumulated prefix
joined to the derived name.  Third conjunct, the claim's scenario end to
end: inside an outer field tagged `AUTH`, `TTLSeconds` tagged `JWT_TTL`
binds to `JWT_TTL` (value 60) and not to `AUTH_TTL_SECONDS` (decoy value
99), while the untagged `MaxAge` binds to `AUTH_MAX_AGE` (value 7). -/
theorem nested_prefix_resolution_c3 :
    (∀ (itag iname pfx : String), (parseFieldTag itag).Name ≠ "" →
      resolvedEnvName itag iname pfx = (parseFieldTag itag).Name) ∧
    (∀ (itag iname pfx : String), (parseFieldTag itag).Name = "" →
      resolvedEnvName itag iname pfx = pfx ++ fieldNameToEnvVariable iname) ∧
    Unmarshal ["AUTH_TTL_SECONDS=99", "JWT_TTL=60", "AUTH_MAX_AGE=7", "AUTH_SIGNING_KEY=s"]
        (.val (.ptr (.strukt nestedTagFields))
          (.ptr (some (.strukt [.strukt [.str "", .uint 0, .uint 0]])))) =
      .ok (.val (.ptr (.strukt nestedTagFields))
        (.ptr (some (.strukt [.strukt [.str "s", .uint 60, .uint 7]]))), none) :=
  ⟨fun itag iname pfx h => by simp [resolvedEnvName, h],
    fun itag iname pfx h => by simp [resolvedEnvName, h],
    rfl⟩

/-- Witness for C3: the explicitly tagged inner field resolves to its tag
name `JWT_TTL` even under the accumulated prefix `AUTH_`, and an untagged
`MaxAge` under that prefix resolves to `AUTH_MAX_AGE`. -/
theorem nested_prefix_c3_witness :
    resolvedEnvName "JWT_TTL" "TTLSeconds" "AUTH_" = "JWT_TTL" ∧
    resolvedEnvName "" "MaxAge" "AUTH_" = "AUTH_MAX_AGE" :=
  ⟨nested_prefix_resolution_c3.1 "JWT_TTL" "TTLSeconds" "AUTH_" (by decide),
    nested_prefix_resolution_c3.2.1 "" "MaxAge" "AUTH_" rfl⟩

/-- C6 counterexample: the claim states that on a failed coercion the field
is left unchanged; but for a pointer-typed field the setter assigns the
freshly allocated pointer BEFORE parsing, so after the failed parse of
"999" into a `*int8` field the field has changed from nil to a pointer to
zero. -/
theorem conversion_error_c6_counterexample :
    processField (.ptr none) "Tiny" "" (.ptr .int8) [("TINY", "999")] "" "" =
      .ok (.ptr (some (.int 0)),
        some ⟨.num ⟨"ParseInt", "999", .errRange⟩, "Tiny", "TINY"⟩) ∧
    valueBeq (.ptr (some (.int 0))) (.ptr none) = false :=
  ⟨rfl, rfl⟩

/-- C6 (amended): for every NON-POINTER field whose (supported) parser
rejects the resolved raw value, processing returns a conversion error that
wraps the underlying parse failure and carries the field path and variable
name, and the field is left unchanged.  (A pointer field instead has its
pointer levels materialized to fresh zero values before the parse fails.) -/
theorem conversion_error_amended_c6 :
    ∀ (fname ftag : String) (fty : Ty) (v : Value)
      (envVars : List (String × String)) (path pfx raw : String)
      (setter : String → Except BaseErr Value) (e : BaseErr),
      (parseFieldTag ftag).Name ≠ "-" →
      mapGet envVars (resolvedEnvName ftag fname pfx) = some raw →
      unmarshalerDepth (.ptr fty) = none →
      (∀ fs, fty ≠ .strukt fs) →
      (∀ t, fty ≠ .ptr t) →
      validateFieldAndReturnSetter fty = .ok setter →
      setter raw = .error e →
      processField v fname ftag fty envVars path pfx =
        .ok (v, some ⟨e, path ++ fname, resolvedEnvName ftag fname pfx⟩) := by
  intro fname ftag fty v envVars path pfx raw setter e hdash hmap hd hstrukt hptr hv hfail
  rw [processField.eq_def,
    preProcess_present fname ftag fty v envVars path pfx raw hdash hmap hd]
  cases fty <;>
    first
      | exact absurd rfl (hstrukt _)
      | exact absurd rfl (hptr _)
      | simp [coerceLeaf, hv, concreteFieldInitializerSet, hfail]

/-- Witness for C6 (amended): "999" into a plain `int8` field yields the
range error wrapped in the field error, and the field keeps its prior
value. -/
theorem conversion_error_c6_witness :
    processField (.int 0) "Small" "" .int8 [("SMALL", "999")] "" "" =
      .ok (.int 0, some ⟨.num ⟨"ParseInt", "999", .errRange⟩, "Small", "SMALL"⟩) :=
  conversion_error_amended_c6 "Small" "" .int8 (.int 0) [("SMALL", "999")] "" "" "999"
    _ _ (by decide) rfl rfl (fun fs h => Ty.noConfusion h) (fun t h => Ty.noConfusion h)
    rfl rfl

/-- C7 counterexample: the claim states that at most one level of
indirection is traversed and that an unsupported innermost type is reported
as the fully-unwrapped type.  But a `**int8` field is coerced through BOTH
pointer levels (even though the one-level unwrap `*int8` has no registered
parser, so a one-level coercer would have failed), and a pointer to the
named unsupported type `namedChan` is reported with the declared pointer
type's empty name, not with "namedChan". -/
theorem pointer_depth_c7_counterexample :
    processField (.ptr none) "N" "" (.ptr (.ptr .int8)) [("N", "5")] "" "" =
      .ok (.ptr (some (.ptr (some (.int 5)))), none) ∧
    fieldKindToParser (Ty.ptr Ty.int8).kind = none ∧
    validateFieldAndReturnSetter (.ptr (.chanT "namedChan")) = .error (.unsupported "") ∧
    (Ty.chanT "namedChan").name = "namedChan" :=
  ⟨rfl, rfl, rfl, rfl⟩

/-- C7 (amended): for every pointer-typed field handled by the value
coercer, EVERY level of indirection is traversed: the kind lookup unwraps
the whole pointer chain, and the setter allocates each intermediate pointer
and coerces the raw string into the innermost value; if the innermost
unwrapped type is unsupported, the error is attributed to the declared
field type (whose name is empty for a pointer type). -/
theorem pointer_depth_amended_c7 :
    ∀ (n : Nat) (t : Ty) (inner : String → Except BaseErr Value) (v : String)
      (old : Value) (nm : String),
      stripPtrAll (ptrN n t) = stripPtrAll t ∧
      (0 < n → validateFieldAndReturnSetter (ptrN n (.chanT nm)) = .error (.unsupported "")) ∧
      (0 < n → concreteFieldInitializerSet inner v (ptrN n t) old =
        (mkPtrChain n (concreteFieldInitializerSet inner v t (zeroValue t)).1,
          (concreteFieldInitializerSet inner v t (zeroValue t)).2)) :=
  fun n t inner v old nm =>
    ⟨stripPtrAll_ptrN n t, validate_ptrN_chan n nm,
      fun hn =>
        match n, hn with
        | m + 1, _ => concreteSet_ptrN_succ m inner v t old⟩

/-- Witness for C7 (amended): at depth 2 over `int8` the kind lookup sees
through both pointers, a depth-2 chain over a named channel type errors
with the empty declared-type name, and the setter materializes both levels
around the coerced base value. -/
theorem pointer_depth_c7_witness :
    stripPtrAll (ptrN 2 .int8) = stripPtrAll .int8 ∧
    validateFieldAndReturnSetter (ptrN 2 (.chanT "C")) = .error (.unsupported "") ∧
    concreteFieldInitializerSet (fun s => .ok (.str s)) "5" (ptrN 2 .int8) (.ptr none) =
      (mkPtrChain 2 (Value.str "5"), none) :=
  ⟨(pointer_depth_amended_c7 2 .int8 (fun s => .ok (.str s)) "5" (.ptr none) "C").1,
    (pointer_depth_amended_c7 2 .int8 (fun s => .ok (.str s)) "5" (.ptr none) "C").2.1
      (by decide),
    (pointer_depth_amended_c7 2 .int8 (fun s => .ok (.str s)) "5" (.ptr none) "C").2.2
      (by decide)⟩

/-- C8 counterexample: the claim states that every token with no '=' other
than exactly "required" is ignored with no effect; but the token "REQUIRED"
(no '=', and not equal to "required") sets the required flag, because the
parser trims, lower-cases and case-folds the key first. -/
theorem tag_directive_c8_counterexample :
    (parseFieldTag ",REQUIRED").Required = true ∧
    (goSplitN2 '=' "REQUIRED".data).2 = none ∧
    ("REQUIRED" == "required") = false :=
  ⟨rfl, rfl, rfl⟩

/-- C8 (amended): the bare token `required` sets the required flag (as does
any case variant of it, since keys are trimmed, lower-cased and
case-folded); directive keys are matched case-insensitively (`DEFAULT=x`
sets the default); and a token with no '=' whose trimmed lower-cased form
is not "required" is silently ignored with no effect on the parsed
directives. -/
theorem tag_directive_amended_c8 :
    (parseFieldTag ",required").Required = true ∧
    (parseFieldTag ",Required").Required = true ∧
    (parseFieldTag ",DEFAULT=x").HasDefault = true ∧
    (parseFieldTag ",DEFAULT=x").Default = "x" ∧
    (∀ (acc : Bool × List (String × String)) (p : List Char),
      goSplitN2 '=' p = (p, none) →
      goEqualFold (String.mk ((goTrimSpace p).map Char.toLower)).data "required".data = false →
      parseTagToken acc p = acc) := by
  refine ⟨rfl, rfl, rfl, rfl, ?_⟩
  intro acc p hsplit hfold
  simp only [parseTagToken, hsplit, hfold, Bool.or_false]

/-- Witness for C8 (amended): the malformed token "foo" leaves the
directive state untouched. -/
theorem tag_directive_c8_witness :
    parseTagToken (false, []) "foo".data = (false, []) :=
  tag_directive_amended_c8.2.2.2.2 (false, []) "foo".data rfl rfl

/-- The outcome of `attemptUnmarshal` is never the panic branch. -/
theorem attemptUnmarshal_ne_panicked (fty : Ty) (field : Value)
    (envValue : String) (envValueSet : Bool) :
    ¬ attemptUnmarshal fty field envValue envValueSet = .panicked := by
  intro h
  unfold attemptUnmarshal at h
  split at h
  · exact UResult.noConfusion h
  · next d hd =>
    split at h
    · exact UResult.noConfusion h
    · simp only [unmarshalerDepth_implements d (.ptr fty) hd, if_true] at h
      exact UResult.noConfusion h

/-- C10: the panic branch of `attemptUnmarshal` is unreachable: whenever the
unwrap loop finds an `Unmarshaler` implementation at some pointer depth, the
value obtained after materializing that many pointer levels satisfies the
interface assertion, so `attemptUnmarshal` never reaches the panic on any
input. -/
theorem attempt_unmarshal_no_panic_c10 :
    ∀ (fty : Ty) (field : Value) (envValue : String) (envValueSet : Bool),
      (attemptUnmarshal fty field envValue envValueSet).isPanicked = false := by
  intro fty field envValue envValueSet
  cases h : attemptUnmarshal fty field envValue envValueSet
  case panicked => exact absurd h (attemptUnmarshal_ne_panicked fty field envValue envValueSet)
  all_goals rfl

end GoEnv
